import Mathlib

/-!
Shallow embedding of the pricing, fee-scheduling and accrual core of the
MeteoraAg cp-amm TypeScript SDK, together with proofs checking the
natural-language specification against it.

Sources embedded here:
* constants file (`SCALE_OFFSET`, `BASIS_POINT_MAX`, `MAX_FEE_NUMERATOR`,
  `FEE_DENOMINATOR`, `MIN_SQRT_PRICE`, `MAX_SQRT_PRICE`);
* the utils file holding `getMaxAmountWithSlippage`,
  `getMinAmountWithSlippage`, `getPriceImpact`, `getPriceFromSqrtPrice`,
  `getSqrtPriceFromPrice` and `getUnClaimReward`;
* the quote path of `CpAmm.getQuote` in `src/src/CpAmm.ts`.

bn.js big integers are embedded as unbounded integers (they are arbitrary
precision in the source); JavaScript `number` arithmetic is embedded as exact
rational arithmetic; the `decimal.js` values appearing in `getPriceImpact`
are embedded by an extended value type carrying the NaN and signed-infinity
points that matter there.
-/

namespace CpAmmSdk

/-- Constant from the constants file: Q64.64 fractional bit count. -/
def SCALE_OFFSET : ℕ := 64

/-- Constant from the constants file: basis point scale. -/
def BASIS_POINT_MAX : ℕ := 10000

/-- Constant from the constants file: absolute fee-numerator ceiling. -/
def MAX_FEE_NUMERATOR : ℕ := 500000000

/-- Constant from the constants file: denominator of all fee rates. -/
def FEE_DENOMINATOR : ℕ := 1000000000

/-- Constant from the constants file: least legal sqrt price. -/
def MIN_SQRT_PRICE : ℕ := 4295048016

/-- Constant from the constants file: greatest legal sqrt price. -/
def MAX_SQRT_PRICE : ℕ := 79226673521066979257578248091

/-- Modelled from the spec: the `LIQUIDITY_SCALE` constant is imported from
the constants file but its defining line is not among the provided sources;
the comment above `getUnClaimReward` fixes it: the product
`totalLiquidity * feePerTokenStore` is shifted right by 128 bits. -/
def LIQUIDITY_SCALE : ℕ := 128

/-- Value of a big-endian byte list, as `new BN(buffer)` reads it. -/
def beVal : List ℕ → ℕ
  | [] => 0
  | b :: rest => b * 256 ^ rest.length + beVal rest

/-- Value obtained by `new BN(Buffer.from(bytes).reverse())`: the stored
little-endian byte array is reversed and then read big-endian. -/
def bnFromLeBytes (bytes : List ℕ) : ℕ :=
  beVal bytes.reverse

/-- bn.js right shift `x.shrn(n)`: defined for non-negative values only
(bn.js `ishrn` asserts that the receiver is non-negative and throws
otherwise), so the embedding is partial. -/
def bnShrn (x : ℤ) (n : ℕ) : Option ℤ :=
  if x < 0 then none else some ((x.toNat >>> n : ℕ) : ℤ)

/-- Per-slot reward data of a pool account. The field is part of the ledger
account layout that the provided sources only consume.
Modelled from the spec: each configured reward slot of the pool carries its
own monotonic per-liquidity reward accumulator. -/
structure PoolRewardInfo where
  rewardPerTokenStored : ℕ
  deriving DecidableEq

/-- The slice of the pool account state read by `getUnClaimReward`:
the two fee-per-liquidity accumulators are stored as little-endian byte
arrays, plus the configured reward slots. -/
structure AccrualPoolState where
  feeAPerLiquidity : List ℕ
  feeBPerLiquidity : List ℕ
  rewardInfos : List PoolRewardInfo
  deriving DecidableEq

/-- Per-slot reward data of a position account: the pending balance the code
reads, and the per-slot checkpoint present in the account layout (the spec
names it; `getUnClaimReward` never touches it). -/
structure PositionRewardInfo where
  rewardPendings : ℕ
  rewardPerTokenCheckpoint : ℕ
  deriving DecidableEq

/-- The slice of the position account state read by `getUnClaimReward`. -/
structure PositionState where
  unlockedLiquidity : ℕ
  vestedLiquidity : ℕ
  permanentLockedLiquidity : ℕ
  feeAPerTokenCheckpoint : List ℕ
  feeBPerTokenCheckpoint : List ℕ
  feeAPending : ℕ
  feeBPending : ℕ
  rewardInfos : List PositionRewardInfo
  deriving DecidableEq

/-- Result record of `getUnClaimReward`. -/
structure UnclaimReward where
  feeTokenA : ℤ
  feeTokenB : ℤ
  rewards : List ℕ
  deriving DecidableEq

/-- Total liquidity of a position as summed at the top of
`getUnClaimReward`: unlocked plus vested plus permanently locked. -/
def totalPositionLiquidity (positionState : PositionState) : ℕ :=
  positionState.unlockedLiquidity + positionState.vestedLiquidity +
    positionState.permanentLockedLiquidity

/-- The accumulator difference computed inside `getUnClaimReward`:
`new BN(Buffer.from(acc).reverse()).sub(new BN(Buffer.from(cp).reverse()))`.
bn.js subtraction is a plain signed subtraction of the two decoded values. -/
def feePerTokenStored (acc checkpoint : List ℕ) : ℤ :=
  (bnFromLeBytes acc : ℤ) - (bnFromLeBytes checkpoint : ℤ)

/-- Embedding of `getUnClaimReward(poolState, positionState)`.
Fees: pending balance plus (total position liquidity times the accumulator
difference) shifted right by `LIQUIDITY_SCALE`; the shift is the partial
bn.js `shrn`, so a negative difference makes the whole call fail.
Rewards: the code returns the raw per-slot `rewardPendings` balances
(mapping over the position reward slots when the list is non-empty, and
returning the empty list otherwise). -/
def getUnClaimReward (poolState : AccrualPoolState) (positionState : PositionState) :
    Option UnclaimReward := do
  let feeAPerTokenStored :=
    feePerTokenStored poolState.feeAPerLiquidity positionState.feeAPerTokenCheckpoint
  let feeBPerTokenStored :=
    feePerTokenStored poolState.feeBPerLiquidity positionState.feeBPerTokenCheckpoint
  let feeA ← bnShrn ((totalPositionLiquidity positionState : ℤ) * feeAPerTokenStored)
    LIQUIDITY_SCALE
  let feeB ← bnShrn ((totalPositionLiquidity positionState : ℤ) * feeBPerTokenStored)
    LIQUIDITY_SCALE
  some
    { feeTokenA := (positionState.feeAPending : ℤ) + feeA
      feeTokenB := (positionState.feeBPending : ℤ) + feeB
      rewards :=
        if positionState.rewardInfos.length > 0 then
          positionState.rewardInfos.map PositionRewardInfo.rewardPendings
        else [] }

/-- Modelled from the spec: the per-slot pending reward the specification
prescribes (`pendingReward(position, pool, rewardIndex)`): the pattern of
the pending fees, applied to the reward accumulator and the per-slot
checkpoint and pending balance. Stated for the refinement comparison with
what `getUnClaimReward` actually returns. -/
def pendingRewardSpec (poolState : AccrualPoolState) (positionState : PositionState)
    (rewardIndex : ℕ) : ℕ :=
  (positionState.rewardInfos.getD rewardIndex ⟨0, 0⟩).rewardPendings +
    (totalPositionLiquidity positionState *
      ((poolState.rewardInfos.getD rewardIndex ⟨0⟩).rewardPerTokenStored -
        (positionState.rewardInfos.getD rewardIndex ⟨0, 0⟩).rewardPerTokenCheckpoint)) >>>
      LIQUIDITY_SCALE

/-- Floor of the base-2 logarithm of the positive fraction `num / den`,
found by doubling the smaller side; the fuel bounds the recursion and far
exceeds the binary64 exponent range. -/
def floorLog2F : ℕ → ℕ → ℕ → ℤ
  | 0, _, _ => 0
  | fuel + 1, num, den =>
    if num < den then floorLog2F fuel (2 * num) den - 1
    else if 2 * den ≤ num then floorLog2F fuel num (2 * den) + 1
    else 0

/-- Round the fraction `num / den` (with `den` positive) to the nearest
integer, ties to even: the IEEE 754 default rounding of a scaled
mantissa. -/
def rnEven (num den : ℕ) : ℕ :=
  let q := num / den
  let r := num % den
  if 2 * r < den then q
  else if den < 2 * r then q + 1
  else if q % 2 = 0 then q else q + 1

/-- Round a non-negative rational `num / den` to the nearest IEEE 754
binary64 value (round to nearest, ties to even), returned as an exact
dyadic fraction: the mantissa is the 53-bit rounding of the input scaled to
`[2 ^ 52, 2 ^ 53)`. Covers the normal range, which holds every value of
the slippage computation. -/
def roundDoubleFrac (num den : ℕ) : ℕ × ℕ :=
  if num = 0 ∨ den = 0 then (0, 1)
  else
    let e := floorLog2F 1200 num den
    if e ≤ 52 then (rnEven (num * 2 ^ (52 - e).toNat) den, 2 ^ (52 - e).toNat)
    else (rnEven num (den * 2 ^ (e - 52).toNat) * 2 ^ (e - 52).toNat, 1)

/-- Embedding of `getMaxAmountWithSlippage(amount, rate)`. The rate is the
exact fraction `rateNum / rateDen` the caller intends (non-negative); the
JavaScript caller can only pass its nearest binary64, so the embedding
rounds it first, then evaluates
`slippage = ((100 + rate) / 100) * BASIS_POINT_MAX` with each double
operation correctly rounded, and finally
`amount.mul(new BN(slippage)).div(new BN(BASIS_POINT_MAX))`, where
`new BN(number)` truncates the fractional part and bn.js division
truncates as well (floor on this non-negative domain). -/
def getMaxAmountWithSlippage (amount rateNum rateDen : ℕ) : ℕ :=
  let r := roundDoubleFrac rateNum rateDen
  let a := roundDoubleFrac (100 * r.2 + r.1) r.2
  let b := roundDoubleFrac a.1 (a.2 * 100)
  let c := roundDoubleFrac (b.1 * BASIS_POINT_MAX) b.2
  amount * (c.1 / c.2) / BASIS_POINT_MAX

/-- Embedding of `getMinAmountWithSlippage(amount, rate)`:
`slippage = ((100 - rate) / 100) * BASIS_POINT_MAX` in correctly rounded
binary64 arithmetic (modelled on the claim domain `rate ≤ 100`, where every
intermediate value is non-negative), then the same truncating
multiply-divide. -/
def getMinAmountWithSlippage (amount rateNum rateDen : ℕ) : ℕ :=
  let r := roundDoubleFrac rateNum rateDen
  let a := roundDoubleFrac (100 * r.2 - r.1) r.2
  let b := roundDoubleFrac a.1 (a.2 * 100)
  let c := roundDoubleFrac (b.1 * BASIS_POINT_MAX) b.2
  amount * (c.1 / c.2) / BASIS_POINT_MAX

/-- Extended value produced by the decimal.js computations in
`getPriceImpact`: a finite value, a signed infinity, or NaN. -/
inductive DecimalValue where
  | finite (q : ℚ)
  | posInf
  | negInf
  | nan
  deriving DecidableEq

/-- Decimal.js division of two (exact) integers: a nonzero value divided by
zero is a signed infinity whose sign is the sign of the numerator, zero
divided by zero is NaN, and otherwise the exact quotient. -/
def decDivInt (a b : ℤ) : DecimalValue :=
  if b = 0 then
    if a = 0 then DecimalValue.nan
    else if 0 < a then DecimalValue.posInf
    else DecimalValue.negInf
  else DecimalValue.finite ((a : ℚ) / (b : ℚ))

/-- Decimal.js multiplication of an extended value by a (nonzero, here
positive) constant: infinities keep or flip their sign with the sign of the
constant, NaN stays NaN. -/
def decMul (v : DecimalValue) (c : ℚ) : DecimalValue :=
  match v with
  | DecimalValue.finite q => DecimalValue.finite (q * c)
  | DecimalValue.posInf =>
      if 0 < c then DecimalValue.posInf
      else if c < 0 then DecimalValue.negInf
      else DecimalValue.nan
  | DecimalValue.negInf =>
      if 0 < c then DecimalValue.negInf
      else if c < 0 then DecimalValue.posInf
      else DecimalValue.nan
  | DecimalValue.nan => DecimalValue.nan

/-- Whether an extended decimal value is finite. -/
def DecimalValue.IsFinite : DecimalValue → Bool
  | DecimalValue.finite _ => true
  | _ => false

/-- Embedding of `getPriceImpact(actualAmount, idealAmount)`:
`diff = idealAmount.sub(actualAmount)` and then
`Decimal(diff).div(Decimal(idealAmount)).mul(100).toNumber()`, with no
guard on a zero `idealAmount`. -/
def getPriceImpact (actualAmount idealAmount : ℤ) : DecimalValue :=
  decMul (decDivInt (idealAmount - actualAmount) idealAmount) 100

/-- Dynamic fee parameters stored in the pool fee state, as read by
`getQuote`. The account field named `initialize` (a flag that is zero when
the dynamic fee is disabled) is carried here as `initializeFlag`. -/
structure DynamicFeeState where
  initializeFlag : ℕ
  volatilityAccumulator : ℕ
  binStep : ℕ
  variableFeeControl : ℕ
  deriving DecidableEq

/-- Pool fee state destructured by `getQuote` from `poolState.poolFees`. -/
structure PoolFeesState where
  feeSchedulerMode : ℕ
  cliffFeeNumerator : ℕ
  numberOfPeriod : ℕ
  periodFrequency : ℕ
  reductionFactor : ℕ
  dynamicFee : DynamicFeeState
  deriving DecidableEq

/-- The slice of the pool account state read by `getQuote`. Mints are kept
abstract as numeric identifiers: `getQuote` only compares them. -/
structure QuotePoolState where
  tokenAMint : ℕ
  tokenBMint : ℕ
  sqrtPrice : ℕ
  liquidity : ℕ
  activationType : ℕ
  activationPoint : ℕ
  poolFees : PoolFeesState
  deriving DecidableEq

/-- Ambient chain state `getQuote` samples on its own: the wall clock in
milliseconds (`Date.now()`) and the current slot
(`connection.getSlot()`). -/
structure ChainEnv where
  nowMs : ℕ
  slot : ℕ
  deriving DecidableEq

/-- Modelled from the spec: `getBaseFeeNumerator` lives in the utils module
that is not among the provided sources. Linear mode:
`cliffFeeNumerator - period * reductionFactor` (the decay floor is taken to
be zero, so the subtraction saturates there); Exponential mode:
`cliffFeeNumerator * (1 - reductionFactor / BASIS_POINT_MAX) ^ period`
floored to an integer, computed here exactly as
`cliff * (BASIS_POINT_MAX - reductionFactor) ^ period / BASIS_POINT_MAX ^ period`. -/
def getBaseFeeNumerator (feeSchedulerMode cliffFeeNumerator period reductionFactor : ℕ) : ℕ :=
  if feeSchedulerMode = 0 then
    cliffFeeNumerator - period * reductionFactor
  else
    cliffFeeNumerator * (BASIS_POINT_MAX - reductionFactor) ^ period / BASIS_POINT_MAX ^ period

/-- Modelled from the spec: the normalization constant of the dynamic-fee
surcharge formula; its value is not among the provided sources, and no claim
depends on it. -/
def dynamicFeeNormalization : ℕ := 100000000000

/-- Modelled from the spec: `getDynamicFeeNumerator` lives in the missing
utils module; the surcharge is
`variableFeeControl * (volatilityAccumulator * binStep) ^ 2` divided by the
normalization constant. -/
def getDynamicFeeNumerator (volatilityAccumulator binStep variableFeeControl : ℕ) : ℕ :=
  variableFeeControl * (volatilityAccumulator * binStep) ^ 2 / dynamicFeeNormalization

/-- Ceiling division on naturals, used for amounts owed to the pool. -/
def ceilDiv (a b : ℕ) : ℕ :=
  (a + b - 1) / b

/-- Modelled from the spec: `calculateSwap(inAmount, sqrtPrice, liquidity,
aToB)` lives in the missing curve module. Bounded constant-product step in
Q64.64 integer arithmetic: A to B moves the sqrt price down to
`liquidity * sqrtPrice / (liquidity + inAmount * sqrtPrice)` (rounded up,
in favor of the pool) clamped at `MIN_SQRT_PRICE`, paying out
`liquidity * (sqrtPrice - newSqrtPrice) / 2 ^ 128` rounded down; B to A
moves it up to `sqrtPrice + inAmount * 2 ^ 128 / liquidity` (rounded down)
clamped at `MAX_SQRT_PRICE`, paying out
`liquidity * (newSqrtPrice - sqrtPrice) / (sqrtPrice * newSqrtPrice)`
rounded down. -/
def calculateSwap (inAmount sqrtPrice liquidity : ℕ) (aToB : Bool) : ℕ :=
  if aToB then
    let nextSqrtPrice :=
      max (ceilDiv (liquidity * sqrtPrice) (liquidity + inAmount * sqrtPrice)) MIN_SQRT_PRICE
    liquidity * (sqrtPrice - nextSqrtPrice) / 2 ^ 128
  else
    let nextSqrtPrice := min (sqrtPrice + inAmount * 2 ^ 128 / liquidity) MAX_SQRT_PRICE
    liquidity * (nextSqrtPrice - sqrtPrice) / (sqrtPrice * nextSqrtPrice)

/-- Modelled from the spec: `calculateFee(outAmount, tradeFeeNumerator)`
lives in the missing utils module; the fee is
`floor(outAmount * feeNumerator / FEE_DENOMINATOR)` and the actual amount
is the remainder, returned as the pair (actualAmount, lpFee). -/
def calculateFee (outAmount tradeFeeNumerator : ℕ) : ℕ × ℕ :=
  let lpFee := outAmount * tradeFeeNumerator / FEE_DENOMINATOR
  (outAmount - lpFee, lpFee)

/-- The `currentPoint` sampled inside `getQuote`: with a timestamp
activation type it is `Math.floor(Date.now() / 1000)`, otherwise the
current slot from the connection. -/
def currentPointOf (poolState : QuotePoolState) (env : ChainEnv) : ℕ :=
  if poolState.activationType ≠ 0 then env.nowMs / 1000 else env.slot

/-- The period computation of `getQuote`: when `currentPoint` is before
`activationPoint` the code picks `numberOfPeriod`; otherwise the elapsed
point count divided by `periodFrequency`, capped at `numberOfPeriod`. -/
def quotePeriod (currentPoint activationPoint numberOfPeriod periodFrequency : ℕ) : ℕ :=
  if currentPoint < activationPoint then numberOfPeriod
  else min numberOfPeriod ((currentPoint - activationPoint) / periodFrequency)

/-- The trade fee numerator `getQuote` hands to `calculateFee`: the base
numerator from the scheduler, then the dynamic-fee branch, then the cap at
`MAX_FEE_NUMERATOR`. In the source the dynamic branch runs
`feeNumerator.add(dynamicFeeNumberator)`: bn.js `add` returns a fresh value
and the result is never assigned, so the numerator is left unchanged; the
embedding reproduces that drop (the branch keeps `feeNumerator` as is). -/
def quoteTradeFeeNumerator (poolFees : PoolFeesState) (period : ℕ) : ℕ :=
  let feeNumerator :=
    getBaseFeeNumerator poolFees.feeSchedulerMode poolFees.cliffFeeNumerator period
      poolFees.reductionFactor
  let dynamicFeeNumerator :=
    getDynamicFeeNumerator poolFees.dynamicFee.volatilityAccumulator
      poolFees.dynamicFee.binStep poolFees.dynamicFee.variableFeeControl
  let feeNumerator :=
    if poolFees.dynamicFee.initializeFlag ≠ 0 then
      feeNumerator
    else feeNumerator
  let _ := dynamicFeeNumerator
  min feeNumerator MAX_FEE_NUMERATOR

/-- Embedding of `CpAmm.getQuote`. The pool state is the snapshot the code
fetches for the pool address; `env` carries the wall clock and slot the
code samples itself. Returns (actualAmount, totalFee). -/
def getQuote (poolState : QuotePoolState) (inputTokenMint inAmount : ℕ) (env : ChainEnv) :
    ℕ × ℕ :=
  let aToB := poolState.tokenAMint = inputTokenMint
  let outAmount := calculateSwap inAmount poolState.sqrtPrice poolState.liquidity aToB
  let currentPoint := currentPointOf poolState env
  let period :=
    quotePeriod currentPoint poolState.activationPoint poolState.poolFees.numberOfPeriod
      poolState.poolFees.periodFrequency
  let tradeFeeNumerator := quoteTradeFeeNumerator poolState.poolFees period
  calculateFee outAmount tradeFeeNumerator

/-- Modelled from the spec: liquidity addable with at most `maxAmountA` of
token A while the sqrt price moves from `sqrtPrice` up to `sqrtMaxPrice`,
floored to the Q64.64 grid:
`maxAmountA * sqrtPrice * sqrtMaxPrice / (sqrtMaxPrice - sqrtPrice)`. -/
def liquidityDeltaFromAmountA (maxAmountA sqrtPrice sqrtMaxPrice : ℕ) : ℕ :=
  maxAmountA * sqrtPrice * sqrtMaxPrice / (sqrtMaxPrice - sqrtPrice)

/-- Modelled from the spec: liquidity addable with at most `maxAmountB` of
token B while the sqrt price moves from `sqrtPrice` down to `sqrtMinPrice`,
floored to the Q64.64 grid:
`maxAmountB * 2 ^ 128 / (sqrtPrice - sqrtMinPrice)`. -/
def liquidityDeltaFromAmountB (maxAmountB sqrtPrice sqrtMinPrice : ℕ) : ℕ :=
  maxAmountB * 2 ^ 128 / (sqrtPrice - sqrtMinPrice)

/-- Modelled from the spec: `getLiquidityDelta` is left as a placeholder
(`TODO`) in `src/src/CpAmm.ts`, so the computation is taken from the spec:
the minimum of the two per-token liquidity bounds, a bound being inactive
when the current sqrt price sits exactly on that side of the range. -/
def getLiquidityDelta (maxAmountA maxAmountB sqrtPrice sqrtMinPrice sqrtMaxPrice : ℕ) : ℕ :=
  if sqrtPrice = sqrtMaxPrice then
    liquidityDeltaFromAmountB maxAmountB sqrtPrice sqrtMinPrice
  else if sqrtPrice = sqrtMinPrice then
    liquidityDeltaFromAmountA maxAmountA sqrtPrice sqrtMaxPrice
  else
    min (liquidityDeltaFromAmountA maxAmountA sqrtPrice sqrtMaxPrice)
      (liquidityDeltaFromAmountB maxAmountB sqrtPrice sqrtMinPrice)

/-- Modelled from the spec: amount of token A a liquidity delta requires
when the price can travel from `sqrtPrice` up to `sqrtMaxPrice`; amounts
owed to the pool round up:
`ceil(liquidityDelta * (sqrtMaxPrice - sqrtPrice) / (sqrtPrice * sqrtMaxPrice))`. -/
def requiredAmountA (liquidityDelta sqrtPrice sqrtMaxPrice : ℕ) : ℕ :=
  ceilDiv (liquidityDelta * (sqrtMaxPrice - sqrtPrice)) (sqrtPrice * sqrtMaxPrice)

/-- Modelled from the spec: amount of token B a liquidity delta requires
when the price can travel from `sqrtPrice` down to `sqrtMinPrice`:
`ceil(liquidityDelta * (sqrtPrice - sqrtMinPrice) / 2 ^ 128)`. -/
def requiredAmountB (liquidityDelta sqrtPrice sqrtMinPrice : ℕ) : ℕ :=
  ceilDiv (liquidityDelta * (sqrtPrice - sqrtMinPrice)) (2 ^ 128)

/-- Embedding of `getSqrtPriceFromPrice(price, tokenADecimal,
tokenBDecimal)`: `floor(sqrt(price / 10 ^ (tokenADecimal - tokenBDecimal))
* 2 ^ 64)`, truncating and never rounding up; the decimal arithmetic of the
source is idealized as exact real arithmetic. -/
noncomputable def getSqrtPriceFromPrice (price : ℝ) (tokenADecimal tokenBDecimal : ℕ) : ℤ :=
  ⌊Real.sqrt (price / (10 : ℝ) ^ ((tokenADecimal : ℤ) - (tokenBDecimal : ℤ))) * 2 ^ 64⌋

/-- Embedding of `getPriceFromSqrtPrice(sqrtPrice, tokenADecimal,
tokenBDecimal)`: `sqrtPrice * sqrtPrice * 10 ^ (tokenADecimal -
tokenBDecimal) / 2 ^ 128` over exact reals. -/
noncomputable def getPriceFromSqrtPrice (sqrtPrice : ℤ) (tokenADecimal tokenBDecimal : ℕ) : ℝ :=
  (sqrtPrice : ℝ) * (sqrtPrice : ℝ) * (10 : ℝ) ^ ((tokenADecimal : ℤ) - (tokenBDecimal : ℤ)) /
    2 ^ 128

/-- Concrete pool snapshot used for the quote claims: timestamp activation
at point 100, ten linear periods of frequency 1, cliff numerator 1000000,
reduction factor 2, dynamic fee disabled. -/
def quoteExamplePool : QuotePoolState :=
  { tokenAMint := 1
    tokenBMint := 2
    sqrtPrice := 2 ^ 64
    liquidity := 2 ^ 64 * 10 ^ 12
    activationType := 1
    activationPoint := 100
    poolFees :=
      { feeSchedulerMode := 0
        cliffFeeNumerator := 1000000
        numberOfPeriod := 10
        periodFrequency := 1
        reductionFactor := 2
        dynamicFee :=
          { initializeFlag := 0
            volatilityAccumulator := 0
            binStep := 0
            variableFeeControl := 0 } } }

/-- Concrete pool snapshot with a reward slot whose pool-side accumulator is
ahead of the position checkpoint. -/
def rewardExamplePool : AccrualPoolState :=
  { feeAPerLiquidity := []
    feeBPerLiquidity := []
    rewardInfos := [{ rewardPerTokenStored := 10 }] }

/-- Concrete position snapshot holding liquidity `2 ^ 128` and one reward
slot with pending balance 5 and checkpoint 0. -/
def rewardExamplePosition : PositionState :=
  { unlockedLiquidity := 2 ^ 128
    vestedLiquidity := 0
    permanentLockedLiquidity := 0
    feeAPerTokenCheckpoint := []
    feeBPerTokenCheckpoint := []
    feeAPending := 0
    feeBPending := 0
    rewardInfos := [{ rewardPendings := 5, rewardPerTokenCheckpoint := 0 }] }

/-- A 32-byte little-endian accumulator whose stored value is 1: a wide
accumulator snapshot taken just after a wraparound of the stored width. -/
def wrappedAccBytes : List ℕ := 1 :: List.replicate 31 0

/-- A 32-byte little-endian checkpoint whose value is 2: recorded just
before the accumulator wrapped. -/
def wrappedCheckpointBytes : List ℕ := 2 :: List.replicate 31 0

/-- Pool snapshot whose A-side accumulator has wrapped below the paired
position checkpoint. -/
def wrappedExamplePool : AccrualPoolState :=
  { feeAPerLiquidity := wrappedAccBytes
    feeBPerLiquidity := []
    rewardInfos := [] }

/-- Position snapshot paired with `wrappedExamplePool`: positive liquidity
and the pre-wrap checkpoint. -/
def wrappedExamplePosition : PositionState :=
  { unlockedLiquidity := 1
    vestedLiquidity := 0
    permanentLockedLiquidity := 0
    feeAPerTokenCheckpoint := wrappedCheckpointBytes
    feeBPerTokenCheckpoint := []
    feeAPending := 0
    feeBPending := 0
    rewardInfos := [] }

/-! Theorems. -/

/-- Claim C9 counterexample: the exact basis-point formula fails on the
program at whole-percent rates inside the claim domain, because
`((100 + rate) / 100) * BASIS_POINT_MAX` in binary64 can land one ulp below
the exact integer and `new BN(number)` truncates. At rate 13 the computed
factor is 11299, not `10000 + 100 * 13 = 11300`, so
`getMaxAmountWithSlippage(10000, 13) = 11299` while the claim demands
`floor(10000 * (10000 + 100 * 13) / 10000) = 11300`; symmetrically at rate
31 the min side gives 6899 instead of 6900. -/
theorem slippage_double_rounding_counterexample :
    getMaxAmountWithSlippage 10000 13 1 = 11299 ∧
    10000 * (10000 + 100 * 13) / 10000 = 11300 ∧
    (11299 : ℕ) ≠ 11300 ∧
    getMinAmountWithSlippage 10000 31 1 = 6899 ∧
    10000 * (10000 - 100 * 31) / 10000 = 6900 ∧
    (6899 : ℕ) ≠ 6900 := by
  refine ⟨?_, ?_, ?_, ?_, ?_, ?_⟩ <;> decide

/-- Claim C9 amended: the helpers apply the truncated binary64 factor
`trunc(((100 +- rate) / 100) * 10000)`, which for many two-decimal rates is
one below the exact `10000 +- 100 * rate`; the concrete spec scenario
survives: at 1 percent the double factors are exactly 10100 and 9900, so
`getMaxAmountWithSlippage(1000000, 1) = 1010000` and
`getMinAmountWithSlippage(1000000, 1) = 990000`. -/
theorem slippage_concrete_one_percent_scenario :
    getMaxAmountWithSlippage 1000000 1 1 = 1010000 ∧
    getMinAmountWithSlippage 1000000 1 1 = 990000 := by
  refine ⟨?_, ?_⟩ <;> decide

/-- Claim C10: `getPriceImpact` divides by `idealAmount` without a zero
guard; at `idealAmount = 0` it does not fail and returns no explicit error
value, but produces NaN when `actualAmount` is zero and a signed infinity
otherwise (negative for a positive `actualAmount`, positive for a negative
one), never a finite number. -/
theorem getPriceImpact_zero_ideal_nonfinite (actualAmount : ℤ) :
    getPriceImpact actualAmount 0 =
      (if actualAmount = 0 then DecimalValue.nan
       else if 0 < actualAmount then DecimalValue.negInf
       else DecimalValue.posInf) ∧
    (getPriceImpact actualAmount 0).IsFinite = false := by
  have h : getPriceImpact actualAmount 0 =
      (if actualAmount = 0 then DecimalValue.nan
       else if 0 < actualAmount then DecimalValue.negInf
       else DecimalValue.posInf) := by
    rcases lt_trichotomy actualAmount 0 with hlt | heq | hgt
    · have e1 : 0 - actualAmount ≠ 0 := by omega
      have e2 : 0 < 0 - actualAmount := by omega
      have e3 : ¬ 0 < actualAmount := by omega
      have e4 : (0 : ℚ) < 100 := by norm_num
      simp [getPriceImpact, decDivInt, decMul, e1, e2, e3, e4, hlt, hlt.ne]
    · subst heq
      norm_num [getPriceImpact, decDivInt, decMul]
    · have e1 : 0 - actualAmount ≠ 0 := by omega
      have e2 : ¬ 0 < 0 - actualAmount := by omega
      have e4 : (0 : ℚ) < 100 := by norm_num
      have e5 : ¬ actualAmount < 0 := by omega
      simp [getPriceImpact, decDivInt, decMul, e1, e2, e4, e5, hgt, hgt.ne']
  refine ⟨h, ?_⟩
  rw [h]
  split_ifs <;> rfl

/-- Claim C1 (code bug evaluation): on a pool with the dynamic fee enabled
(base numerator 1000000, volatility accumulator 10000, bin step 10,
variable fee control 10000, hence surcharge 1000), the numerator `getQuote`
applies is the bare base numerator 1000000, not the claimed
`min(base + surcharge, MAX_FEE_NUMERATOR) = 1001000`: the source drops the
result of `feeNumerator.add(dynamicFeeNumberator)`. The cap itself does
equal 50 percent of `FEE_DENOMINATOR`. -/
theorem quote_dynamic_fee_surcharge_dropped :
    quoteTradeFeeNumerator
        { feeSchedulerMode := 0
          cliffFeeNumerator := 1000000
          numberOfPeriod := 0
          periodFrequency := 1
          reductionFactor := 0
          dynamicFee :=
            { initializeFlag := 1
              volatilityAccumulator := 10000
              binStep := 10
              variableFeeControl := 10000 } } 0 = 1000000 ∧
    getDynamicFeeNumerator 10000 10 10000 = 1000 ∧
    min (getBaseFeeNumerator 0 1000000 0 0 + getDynamicFeeNumerator 10000 10 10000)
        MAX_FEE_NUMERATOR = 1001000 ∧
    2 * MAX_FEE_NUMERATOR = FEE_DENOMINATOR := by
  refine ⟨?_, ?_, ?_, ?_⟩ <;> decide

/-- Claim C2 (code bug evaluation): for a `currentPoint` of 99 strictly
before an `activationPoint` of 100, `getQuote` computes
`period = numberOfPeriod = 10`, the fully decayed floor state (base
numerator 999980 with linear cliff 1000000 and reduction 2), not the
claimed `period = 0` cliff state (numerator 1000000). The computation does
not fail on the out-of-range point. -/
theorem quote_period_before_activation_is_floor_state :
    quotePeriod 99 100 10 1 = 10 ∧ (10 : ℕ) ≠ 0 ∧
    getBaseFeeNumerator 0 1000000 10 2 = 999980 ∧
    getBaseFeeNumerator 0 1000000 0 2 = 1000000 := by
  refine ⟨?_, ?_, ?_, ?_⟩ <;> decide

/-- Claim C5 counterexample: two `getQuote` invocations with the same pool
snapshot, input mint and input amount return different total fees when only
the wall clock differs (100 seconds versus 105 seconds past the epoch used
here), so the quote is not a pure function of
(poolSnapshot, inputMint, inAmount, currentPoint): it samples
`Date.now()` (or the current slot) itself. -/
theorem getQuote_depends_on_wall_clock :
    getQuote quoteExamplePool 1 1000000000 ⟨100000, 0⟩ ≠
      getQuote quoteExamplePool 1 1000000000 ⟨105000, 0⟩ := by
  decide

/-- Claim C5 amended: `getQuote` is deterministic once the ambient samples
are fixed: its output depends on the chain environment only through the
derived `currentPoint`, so two invocations with equal pool snapshot, input
mint, input amount and equal sampled point return equal results. -/
theorem getQuote_deterministic_given_current_point (poolState : QuotePoolState)
    (inputTokenMint inAmount : ℕ) (e1 e2 : ChainEnv)
    (h : currentPointOf poolState e1 = currentPointOf poolState e2) :
    getQuote poolState inputTokenMint inAmount e1 =
      getQuote poolState inputTokenMint inAmount e2 := by
  unfold getQuote
  rw [h]

/-- Claim C5 amended witness: two environments in the same wall-clock
second (and with different slots) yield the same quote on the example
pool. -/
theorem getQuote_deterministic_given_current_point_witness :
    currentPointOf quoteExamplePool ⟨101500, 3⟩ = currentPointOf quoteExamplePool ⟨101900, 99⟩ ∧
    getQuote quoteExamplePool 1 1000000000 ⟨101500, 3⟩ =
      getQuote quoteExamplePool 1 1000000000 ⟨101900, 99⟩ :=
  ⟨by decide,
    getQuote_deterministic_given_current_point quoteExamplePool 1 1000000000 ⟨101500, 3⟩
      ⟨101900, 99⟩ (by decide)⟩

/-- Claim C6 counterexample: on a position with liquidity `2 ^ 128`, one
reward slot with pending balance 5 and checkpoint 0, and a pool-side
accumulator of 10 for that slot, `getUnClaimReward` returns the bare
pending balance 5 for the slot, not the checkpoint-pattern value
`5 + (2 ^ 128 * (10 - 0)) >>> 128 = 15` the claim prescribes. -/
theorem getUnClaimReward_reward_ignores_accumulator :
    getUnClaimReward rewardExamplePool rewardExamplePosition = some ⟨0, 0, [5]⟩ ∧
    pendingRewardSpec rewardExamplePool rewardExamplePosition 0 = 15 ∧
    Option.map UnclaimReward.rewards
        (getUnClaimReward rewardExamplePool rewardExamplePosition) ≠
      some [pendingRewardSpec rewardExamplePool rewardExamplePosition 0] := by
  refine ⟨by decide, by decide, by decide⟩

/-- Claim C6 amended: whenever `getUnClaimReward` succeeds, the rewards it
returns are exactly the per-slot `rewardPendings` balances of the position,
with no accumulator-minus-checkpoint term. -/
theorem getUnClaimReward_rewards_are_pendings (poolState : AccrualPoolState)
    (positionState : PositionState) (r : UnclaimReward)
    (h : getUnClaimReward poolState positionState = some r) :
    r.rewards = positionState.rewardInfos.map PositionRewardInfo.rewardPendings := by
  simp only [getUnClaimReward] at h
  cases hA : bnShrn
      ((totalPositionLiquidity positionState : ℤ) *
        feePerTokenStored poolState.feeAPerLiquidity positionState.feeAPerTokenCheckpoint)
      LIQUIDITY_SCALE with
  | none => rw [hA] at h; simp at h
  | some feeA =>
    cases hB : bnShrn
        ((totalPositionLiquidity positionState : ℤ) *
          feePerTokenStored poolState.feeBPerLiquidity positionState.feeBPerTokenCheckpoint)
        LIQUIDITY_SCALE with
    | none => rw [hA, hB] at h; simp at h
    | some feeB =>
      rw [hA, hB] at h
      simp only [Option.bind_eq_bind, Option.some_bind, Option.some.injEq] at h
      rw [← h]
      cases positionState.rewardInfos <;> simp

/-- Claim C6 amended witness: the example snapshots instantiate the amended
statement. -/
theorem getUnClaimReward_rewards_are_pendings_witness :
    getUnClaimReward rewardExamplePool rewardExamplePosition = some ⟨0, 0, [5]⟩ ∧
    (⟨0, 0, [5]⟩ : UnclaimReward).rewards =
      rewardExamplePosition.rewardInfos.map PositionRewardInfo.rewardPendings :=
  ⟨by decide,
    getUnClaimReward_rewards_are_pendings rewardExamplePool rewardExamplePosition
      ⟨0, 0, [5]⟩ (by decide)⟩

/-- Claim C7 counterexample: on 32-byte snapshots where the stored
accumulator value 1 has wrapped below the checkpoint value 2, the computed
difference is the plain signed value -1: it is negative and differs from
the modular difference `2 ^ 256 - 1` of the stored width, and
`getUnClaimReward` fails on the pair (bn.js refuses to right-shift a
negative value). -/
theorem feePerTokenStored_wrapped_snapshot_negative :
    feePerTokenStored wrappedAccBytes wrappedCheckpointBytes = -1 ∧
    ((bnFromLeBytes wrappedAccBytes + 2 ^ 256 - bnFromLeBytes wrappedCheckpointBytes) %
        2 ^ 256 : ℕ) = 2 ^ 256 - 1 ∧
    (-1 : ℤ) ≠ ((2 ^ 256 - 1 : ℕ) : ℤ) ∧
    ¬ (0 ≤ feePerTokenStored wrappedAccBytes wrappedCheckpointBytes) ∧
    getUnClaimReward wrappedExamplePool wrappedExamplePosition = none := by
  refine ⟨by decide, by decide, by decide, by decide, by decide⟩

theorem beVal_lt (l : List ℕ) (h : ∀ b ∈ l, b < 256) : beVal l < 256 ^ l.length := by
  induction l with
  | nil => simp [beVal]
  | cons b rest ih =>
    have hb : b < 256 := h b (List.mem_cons_self b rest)
    have hr : beVal rest < 256 ^ rest.length :=
      ih (fun x hx => h x (List.mem_cons_of_mem _ hx))
    calc b * 256 ^ rest.length + beVal rest
        < (b + 1) * 256 ^ rest.length := by
          simp only [beVal, Nat.add_mul, Nat.one_mul]
          omega
      _ ≤ 256 * 256 ^ rest.length := Nat.mul_le_mul_right _ (by omega)
      _ = 256 ^ (b :: rest).length := by
          rw [List.length_cons, Nat.pow_succ, Nat.mul_comm]

theorem bnFromLeBytes_lt (l : List ℕ) (h : ∀ b ∈ l, b < 256) :
    bnFromLeBytes l < 2 ^ (8 * l.length) := by
  have := beVal_lt l.reverse (fun x hx => h x (List.mem_reverse.mp hx))
  rw [List.length_reverse] at this
  calc bnFromLeBytes l < 256 ^ l.length := this
    _ = 2 ^ (8 * l.length) := by
        rw [show (256 : ℕ) = 2 ^ 8 from rfl, ← Nat.pow_mul]

/-- Claim C7 amended: the accumulator difference in `getUnClaimReward` is a
plain signed subtraction of the decoded values; when the stored accumulator
has not wrapped below the checkpoint (checkpoint value at most accumulator
value, bytes in range), it is non-negative and equals the modular
difference taken at the stored width, but on wrapped snapshots it is the
negative plain difference and the computation fails. -/
theorem feePerTokenStored_eq_modular_diff_when_not_wrapped (acc checkpoint : List ℕ)
    (hbytes : ∀ b ∈ acc, b < 256)
    (hle : bnFromLeBytes checkpoint ≤ bnFromLeBytes acc) :
    feePerTokenStored acc checkpoint =
      (((bnFromLeBytes acc + 2 ^ (8 * acc.length) - bnFromLeBytes checkpoint) %
          2 ^ (8 * acc.length) : ℕ) : ℤ) ∧
    0 ≤ feePerTokenStored acc checkpoint := by
  have hlt : bnFromLeBytes acc < 2 ^ (8 * acc.length) := bnFromLeBytes_lt acc hbytes
  have hmod : (bnFromLeBytes acc + 2 ^ (8 * acc.length) - bnFromLeBytes checkpoint) %
      2 ^ (8 * acc.length) = bnFromLeBytes acc - bnFromLeBytes checkpoint := by
    have e1 : bnFromLeBytes acc + 2 ^ (8 * acc.length) - bnFromLeBytes checkpoint =
        (bnFromLeBytes acc - bnFromLeBytes checkpoint) + 2 ^ (8 * acc.length) := by
      omega
    rw [e1, Nat.add_mod_right, Nat.mod_eq_of_lt (by omega)]
  constructor
  · rw [hmod]
    unfold feePerTokenStored
    omega
  · unfold feePerTokenStored
    omega

/-- Claim C7 amended witness: a one-byte non-wrapped pair (accumulator 3,
checkpoint 1) instantiates the amended statement. -/
theorem feePerTokenStored_eq_modular_diff_witness :
    (∀ b ∈ [(3 : ℕ)], b < 256) ∧ bnFromLeBytes [1] ≤ bnFromLeBytes [3] ∧
    (feePerTokenStored [3] [1] =
        (((bnFromLeBytes [3] + 2 ^ (8 * [(3 : ℕ)].length) - bnFromLeBytes [1]) %
            2 ^ (8 * [(3 : ℕ)].length) : ℕ) : ℤ) ∧
      0 ≤ feePerTokenStored [3] [1]) :=
  ⟨by decide, by decide,
    feePerTokenStored_eq_modular_diff_when_not_wrapped [3] [1] (by decide) (by decide)⟩

theorem bnShrn_natCast (n k : ℕ) : bnShrn (n : ℤ) k = some ((n >>> k : ℕ) : ℤ) := by
  unfold bnShrn
  rw [if_neg (by exact not_lt.mpr (Int.natCast_nonneg n)), Int.toNat_natCast]

/-- Claim C3: when neither stored accumulator has wrapped below its
checkpoint, `getUnClaimReward` returns for token A exactly
`positionTotalLiquidity * (feeAPerLiquidity - feeAPerTokenCheckpoint)
 >>> LIQUIDITY_SCALE + feeAPending` with
`positionTotalLiquidity = unlockedLiquidity + vestedLiquidity +
permanentlyLockedLiquidity`, and symmetrically for token B. -/
theorem getUnClaimReward_fee_formula (poolState : AccrualPoolState)
    (positionState : PositionState)
    (hA : bnFromLeBytes positionState.feeAPerTokenCheckpoint ≤
      bnFromLeBytes poolState.feeAPerLiquidity)
    (hB : bnFromLeBytes positionState.feeBPerTokenCheckpoint ≤
      bnFromLeBytes poolState.feeBPerLiquidity) :
    getUnClaimReward poolState positionState = some
      { feeTokenA := ((positionState.feeAPending +
          (totalPositionLiquidity positionState *
            (bnFromLeBytes poolState.feeAPerLiquidity -
              bnFromLeBytes positionState.feeAPerTokenCheckpoint)) >>> LIQUIDITY_SCALE : ℕ) : ℤ)
        feeTokenB := ((positionState.feeBPending +
          (totalPositionLiquidity positionState *
            (bnFromLeBytes poolState.feeBPerLiquidity -
              bnFromLeBytes positionState.feeBPerTokenCheckpoint)) >>> LIQUIDITY_SCALE : ℕ) : ℤ)
        rewards := positionState.rewardInfos.map PositionRewardInfo.rewardPendings } := by
  have eA : feePerTokenStored poolState.feeAPerLiquidity positionState.feeAPerTokenCheckpoint =
      ((bnFromLeBytes poolState.feeAPerLiquidity -
        bnFromLeBytes positionState.feeAPerTokenCheckpoint : ℕ) : ℤ) := by
    unfold feePerTokenStored
    omega
  have eB : feePerTokenStored poolState.feeBPerLiquidity positionState.feeBPerTokenCheckpoint =
      ((bnFromLeBytes poolState.feeBPerLiquidity -
        bnFromLeBytes positionState.feeBPerTokenCheckpoint : ℕ) : ℤ) := by
    unfold feePerTokenStored
    omega
  simp only [getUnClaimReward]
  rw [eA, eB, ← Nat.cast_mul, ← Nat.cast_mul, bnShrn_natCast, bnShrn_natCast]
  cases positionState.rewardInfos <;> simp [Nat.cast_add]

/-- Claim C3 witness: concrete snapshots (accumulators 7 and 3 against
checkpoints 2 and 1, liquidity `2 ^ 128 + 2 ^ 129`, pendings 11 and 13)
instantiate the fee formula. -/
theorem getUnClaimReward_fee_formula_witness :
    bnFromLeBytes [2] ≤ bnFromLeBytes [7] ∧ bnFromLeBytes [1] ≤ bnFromLeBytes [3] ∧
    getUnClaimReward
        { feeAPerLiquidity := [7], feeBPerLiquidity := [3], rewardInfos := [] }
        { unlockedLiquidity := 2 ^ 128
          vestedLiquidity := 2 ^ 129
          permanentLockedLiquidity := 0
          feeAPerTokenCheckpoint := [2]
          feeBPerTokenCheckpoint := [1]
          feeAPending := 11
          feeBPending := 13
          rewardInfos := [] } = some
      { feeTokenA := ((11 +
          (totalPositionLiquidity
              { unlockedLiquidity := 2 ^ 128
                vestedLiquidity := 2 ^ 129
                permanentLockedLiquidity := 0
                feeAPerTokenCheckpoint := [2]
                feeBPerTokenCheckpoint := [1]
                feeAPending := 11
                feeBPending := 13
                rewardInfos := [] } *
            (bnFromLeBytes [7] - bnFromLeBytes [2])) >>> LIQUIDITY_SCALE : ℕ) : ℤ)
        feeTokenB := ((13 +
          (totalPositionLiquidity
              { unlockedLiquidity := 2 ^ 128
                vestedLiquidity := 2 ^ 129
                permanentLockedLiquidity := 0
                feeAPerTokenCheckpoint := [2]
                feeBPerTokenCheckpoint := [1]
                feeAPending := 11
                feeBPending := 13
                rewardInfos := [] } *
            (bnFromLeBytes [3] - bnFromLeBytes [1])) >>> LIQUIDITY_SCALE : ℕ) : ℤ)
        rewards := [] } :=
  ⟨by decide, by decide,
    getUnClaimReward_fee_formula
      { feeAPerLiquidity := [7], feeBPerLiquidity := [3], rewardInfos := [] }
      { unlockedLiquidity := 2 ^ 128
        vestedLiquidity := 2 ^ 129
        permanentLockedLiquidity := 0
        feeAPerTokenCheckpoint := [2]
        feeBPerTokenCheckpoint := [1]
        feeAPending := 11
        feeBPending := 13
        rewardInfos := [] } (by decide) (by decide)⟩

theorem ceilDiv_le_of_le (a b c : ℕ) (h : a ≤ c * b) : ceilDiv a b ≤ c := by
  rcases Nat.eq_zero_or_pos b with hb | hb
  · simp [ceilDiv, hb]
  · unfold ceilDiv
    have e1 : a + b - 1 = a + (b - 1) := by omega
    have e2 : a + (b - 1) ≤ c * b + (b - 1) := Nat.add_le_add_right h _
    have e3 : c * b + (b - 1) = (b - 1) + b * c := by
      rw [Nat.add_comm, Nat.mul_comm]
    calc (a + b - 1) / b ≤ ((b - 1) + b * c) / b := by
          apply Nat.div_le_div_right
          omega
      _ = (b - 1) / b + c := Nat.add_mul_div_left _ _ hb
      _ = c := by rw [Nat.div_eq_of_lt (by omega), Nat.zero_add]

/-- Claim C4 (settled against the spec model, the source body being a
placeholder): for a current sqrt price inside the pool bounds, the
liquidity delta is the floor of the binding per-token bound (the minimum of
the two in the interior, the sole active one on a boundary), and converting
it back to required token amounts never exceeds either maximum. -/
theorem getLiquidityDelta_respects_max_amounts
    (maxAmountA maxAmountB sqrtPrice sqrtMinPrice sqrtMaxPrice : ℕ)
    (hmin : 0 < sqrtMinPrice) (h1 : sqrtMinPrice ≤ sqrtPrice) (h2 : sqrtPrice ≤ sqrtMaxPrice) :
    requiredAmountA
        (getLiquidityDelta maxAmountA maxAmountB sqrtPrice sqrtMinPrice sqrtMaxPrice)
        sqrtPrice sqrtMaxPrice ≤ maxAmountA ∧
    requiredAmountB
        (getLiquidityDelta maxAmountA maxAmountB sqrtPrice sqrtMinPrice sqrtMaxPrice)
        sqrtPrice sqrtMinPrice ≤ maxAmountB ∧
    (sqrtMinPrice < sqrtPrice → sqrtPrice < sqrtMaxPrice →
      getLiquidityDelta maxAmountA maxAmountB sqrtPrice sqrtMinPrice sqrtMaxPrice =
        min (liquidityDeltaFromAmountA maxAmountA sqrtPrice sqrtMaxPrice)
          (liquidityDeltaFromAmountB maxAmountB sqrtPrice sqrtMinPrice)) := by
  have hP : 0 < sqrtPrice := lt_of_lt_of_le hmin h1
  have hPmax : 0 < sqrtMaxPrice := lt_of_lt_of_le hP h2
  have hPPmax : 0 < sqrtPrice * sqrtMaxPrice := Nat.mul_pos hP hPmax
  have hAbound : ∀ L, L ≤ liquidityDeltaFromAmountA maxAmountA sqrtPrice sqrtMaxPrice →
      requiredAmountA L sqrtPrice sqrtMaxPrice ≤ maxAmountA := by
    intro L hL
    apply ceilDiv_le_of_le
    calc L * (sqrtMaxPrice - sqrtPrice)
        ≤ liquidityDeltaFromAmountA maxAmountA sqrtPrice sqrtMaxPrice *
            (sqrtMaxPrice - sqrtPrice) := Nat.mul_le_mul_right _ hL
      _ ≤ maxAmountA * sqrtPrice * sqrtMaxPrice := Nat.div_mul_le_self _ _
      _ = maxAmountA * (sqrtPrice * sqrtMaxPrice) := Nat.mul_assoc _ _ _
  have hBbound : ∀ L, L ≤ liquidityDeltaFromAmountB maxAmountB sqrtPrice sqrtMinPrice →
      requiredAmountB L sqrtPrice sqrtMinPrice ≤ maxAmountB := by
    intro L hL
    apply ceilDiv_le_of_le
    calc L * (sqrtPrice - sqrtMinPrice)
        ≤ liquidityDeltaFromAmountB maxAmountB sqrtPrice sqrtMinPrice *
            (sqrtPrice - sqrtMinPrice) := Nat.mul_le_mul_right _ hL
      _ ≤ maxAmountB * 2 ^ 128 := Nat.div_mul_le_self _ _
  unfold getLiquidityDelta
  split_ifs with hmax hmin'
  · refine ⟨?_, hBbound _ le_rfl, ?_⟩
    · subst hmax
      unfold requiredAmountA
      rw [Nat.sub_self, Nat.mul_zero]
      exact ceilDiv_le_of_le _ _ _ (Nat.zero_le _)
    · intro _ hlt
      exact absurd hmax hlt.ne
  · refine ⟨hAbound _ le_rfl, ?_, ?_⟩
    · subst hmin'
      unfold requiredAmountB
      rw [Nat.sub_self, Nat.mul_zero]
      exact ceilDiv_le_of_le _ _ _ (Nat.zero_le _)
    · intro hlt _
      exact absurd hmin' hlt.ne'
  · exact ⟨hAbound _ (Nat.min_le_left _ _), hBbound _ (Nat.min_le_right _ _),
      fun _ _ => rfl⟩

/-- Claim C4 witness: bounds `2 ^ 64` and `2 ^ 66` around the current sqrt
price `2 ^ 65` with a billion units of each token. -/
theorem getLiquidityDelta_respects_max_amounts_witness :
    (0 : ℕ) < 2 ^ 64 ∧ (2 ^ 64 : ℕ) ≤ 2 ^ 65 ∧ (2 ^ 65 : ℕ) ≤ 2 ^ 66 ∧
    (requiredAmountA
        (getLiquidityDelta 1000000000 1000000000 (2 ^ 65) (2 ^ 64) (2 ^ 66))
        (2 ^ 65) (2 ^ 66) ≤ 1000000000 ∧
      requiredAmountB
        (getLiquidityDelta 1000000000 1000000000 (2 ^ 65) (2 ^ 64) (2 ^ 66))
        (2 ^ 65) (2 ^ 64) ≤ 1000000000 ∧
      ((2 ^ 64 : ℕ) < 2 ^ 65 → (2 ^ 65 : ℕ) < 2 ^ 66 →
        getLiquidityDelta 1000000000 1000000000 (2 ^ 65) (2 ^ 64) (2 ^ 66) =
          min (liquidityDeltaFromAmountA 1000000000 (2 ^ 65) (2 ^ 66))
            (liquidityDeltaFromAmountB 1000000000 (2 ^ 65) (2 ^ 64)))) :=
  ⟨by norm_num, by norm_num, by norm_num,
    getLiquidityDelta_respects_max_amounts 1000000000 1000000000 (2 ^ 65) (2 ^ 64) (2 ^ 66)
      (by norm_num) (by norm_num) (by norm_num)⟩

/-- Claim C8: round-trip bound. Converting a positive decimal price to the
Q64.64 sqrt price `s` (a floor, so truncating) and back yields a value
within a bounded relative error of the original price: the round-trip never
exceeds the price, and it exceeds the fraction `s ^ 2 / (s + 1) ^ 2` of it
(stated multiplied out), so the relative error is at most
`(2 * s + 1) / (s + 1) ^ 2`. -/
theorem sqrtPrice_roundtrip_bounded (price : ℝ) (dA dB : ℕ) (hp : 0 < price)
    (hs : 1 ≤ getSqrtPriceFromPrice price dA dB) :
    getPriceFromSqrtPrice (getSqrtPriceFromPrice price dA dB) dA dB ≤ price ∧
    price * ((getSqrtPriceFromPrice price dA dB : ℝ)) ^ 2 <
      getPriceFromSqrtPrice (getSqrtPriceFromPrice price dA dB) dA dB *
        ((getSqrtPriceFromPrice price dA dB : ℝ) + 1) ^ 2 := by
  unfold getSqrtPriceFromPrice getPriceFromSqrtPrice at *
  set δ : ℤ := (dA : ℤ) - (dB : ℤ) with hδ
  set d : ℝ := (10 : ℝ) ^ δ with hd
  have hd0 : 0 < d := zpow_pos (by norm_num) δ
  set q : ℝ := price / d with hq
  have hq0 : 0 < q := div_pos hp hd0
  set r : ℝ := Real.sqrt q with hr
  have hr0 : 0 < r := Real.sqrt_pos.mpr hq0
  have hrq : r * r = q := Real.mul_self_sqrt hq0.le
  set s : ℤ := ⌊r * 2 ^ 64⌋ with hsdef
  have h1 : (s : ℝ) ≤ r * 2 ^ 64 := Int.floor_le _
  have h2 : r * 2 ^ 64 < (s : ℝ) + 1 := Int.lt_floor_add_one _
  have hs1 : (1 : ℝ) ≤ (s : ℝ) := by exact_mod_cast hs
  have hprice : price = q * d := by
    rw [hq]
    field_simp
  have key1 : (s : ℝ) * (s : ℝ) ≤ q * 2 ^ 128 := by
    nlinarith [h1, hrq, hr0.le, hs1]
  have key2 : q * 2 ^ 128 < ((s : ℝ) + 1) * ((s : ℝ) + 1) := by
    nlinarith [h2, hrq, hr0.le]
  constructor
  · rw [hprice, div_le_iff₀ (by norm_num : (0 : ℝ) < 2 ^ 128)]
    nlinarith [mul_le_mul_of_nonneg_right key1 hd0.le]
  · have e : (s : ℝ) * (s : ℝ) * d / 2 ^ 128 * ((s : ℝ) + 1) ^ 2 =
        (s : ℝ) * (s : ℝ) * d * ((s : ℝ) + 1) ^ 2 / 2 ^ 128 := by
      ring
    rw [e, lt_div_iff₀ (by norm_num : (0 : ℝ) < 2 ^ 128), hprice]
    have hds : (0 : ℝ) < d * (s : ℝ) ^ 2 := by positivity
    nlinarith [mul_lt_mul_of_pos_left key2 hds]

theorem getSqrtPriceFromPrice_four : getSqrtPriceFromPrice 4 0 0 = 2 ^ 65 := by
  unfold getSqrtPriceFromPrice
  rw [show ((0 : ℕ) : ℤ) - ((0 : ℕ) : ℤ) = 0 by norm_num, zpow_zero, div_one]
  rw [show (4 : ℝ) = 2 ^ 2 by norm_num, Real.sqrt_sq (by norm_num : (0 : ℝ) ≤ 2)]
  rw [show (2 : ℝ) * 2 ^ 64 = ((2 ^ 65 : ℤ) : ℝ) by push_cast; ring]
  exact Int.floor_intCast _

/-- Claim C8 witness: price 4 with equal token decimals; the sqrt price is
`2 ^ 65` and the round-trip bounds hold there. -/
theorem sqrtPrice_roundtrip_bounded_witness :
    (0 : ℝ) < 4 ∧ 1 ≤ getSqrtPriceFromPrice 4 0 0 ∧
    (getPriceFromSqrtPrice (getSqrtPriceFromPrice 4 0 0) 0 0 ≤ 4 ∧
      4 * ((getSqrtPriceFromPrice 4 0 0 : ℝ)) ^ 2 <
        getPriceFromSqrtPrice (getSqrtPriceFromPrice 4 0 0) 0 0 *
          ((getSqrtPriceFromPrice 4 0 0 : ℝ) + 1) ^ 2) :=
  ⟨by norm_num, by rw [getSqrtPriceFromPrice_four]; norm_num,
    sqrtPrice_roundtrip_bounded 4 0 0 (by norm_num)
      (by rw [getSqrtPriceFromPrice_four]; norm_num)⟩

end CpAmmSdk
